import Mathlib

/-!
Verification of the CallAi call-agent repository.

Shallow embedding of the Python modules
`core/campaign_manager.py`, `call_agent/campaign_manager.py`,
`call_agent/nlp_extractor.py`, `call_agent/mid_conversation_brain.py`,
`call_agent/finetuned_llm.py` and `call_agent/conversation_pipeline.py`.

Modelling conventions:
* Python strings are lists of characters (`Str`); `x in s` is `isSub`,
  `s.lower()` is `lowerStr` (the repository's text is ASCII).
* Python floats (confidence scores, thresholds) are modelled as exact
  rationals `ℚ`; every float computed by the embedded code is a quotient of
  small integers.
* A dictionary that may or may not carry a key is modelled with `Option`
  fields; Python's falsiness of `None` and `[]` is noted at each use.
* Calls into external services (the regex engine, the chat model) are
  modelled as oracle arguments; exceptions are modelled with `Except`.
-/

set_option autoImplicit false

deriving instance DecidableEq for Except

namespace CallAi

/-- Python strings, modelled as lists of characters. -/
abbrev Str := List Char

/-- Coerce a Lean string literal to the character-list model. -/
def strOf (s : String) : Str := s.toList

/-- Python `s.lower()` (ASCII). -/
def lowerStr (s : Str) : Str := s.map Char.toLower

/-- Boolean list-prefix test (used to implement the substring test). -/
def isPrefixL : Str → Str → Bool
  | [], _ => true
  | _ :: _, [] => false
  | a :: ps, b :: ss => a == b && isPrefixL ps ss

/-- Python substring containment `pat in s`. -/
def isSub : Str → Str → Bool
  | pat, [] => pat.isEmpty
  | pat, c :: rest => isPrefixL pat (c :: rest) || isSub pat rest

/-! Python float arithmetic on confidences and thresholds is modelled as
exact rational arithmetic.  The operations are written with the
normalising constructor `mkRat` (so that concrete runs reduce in the
kernel); the lemmas `ratDiv_eq_div`, `ratMul_eq_mul` and `ratAdd_eq_add`
state that they are exactly division, multiplication and addition
on `ℚ`. -/

/-- Python `a / b` on counts (exact rational division; like `(· / ·)` it
yields 0 for a zero denominator, though no embedded call site divides by
zero). -/
def ratDiv (a b : Nat) : ℚ := mkRat a b

/-- Python `a * b` on confidences (exact rational multiplication). -/
def ratMul (a b : ℚ) : ℚ := mkRat (a.num * b.num) (a.den * b.den)

/-- Python `a + b` on scores (exact rational addition). -/
def ratAdd (a b : ℚ) : ℚ := mkRat (a.num * b.den + b.num * a.den) (a.den * b.den)

lemma ratDiv_eq_div (a b : Nat) : ratDiv a b = (a : ℚ) / (b : ℚ) := by
  rw [ratDiv, Rat.mkRat_eq_divInt, Rat.divInt_eq_div]
  norm_num

lemma ratMul_eq_mul (a b : ℚ) : ratMul a b = a * b := by
  rw [ratMul, Rat.mul_def, mkRat,
    dif_neg (Nat.mul_ne_zero a.den_nz b.den_nz)]

lemma ratAdd_eq_add (a b : ℚ) : ratAdd a b = a + b := (Rat.add_def' a b).symm

/-! ## Campaign stages (`crm/models/crm.py`, `CampaignStage`) -/

inductive CampaignStage where
  | introduction
  | needs_assessment
  | solution_presentation
  | objection_handling
  | closing
  | follow_up
deriving DecidableEq, Repr

/-! ## `get_next_stage` (`core/campaign_manager.py` 140-153,
`call_agent/campaign_manager.py` 51-64; both bodies are identical) -/

/-- Python `list.index` returning the first index, with `ValueError`
modelled as `none`. -/
def index_of {α : Type} [DecidableEq α] : List α → α → Option Nat
  | [], _ => none
  | a :: rest, x => if a = x then some 0 else (index_of rest x).map (· + 1)

/-- Embedding of `get_next_stage`: index of `current` in `stages`;
if `current_index + 1 < len(stages)` return `stages[current_index + 1]`,
otherwise (or when `.index` raises `ValueError`) return `None`. -/
def get_next_stage {α : Type} [DecidableEq α] (stages : List α) (current : α) :
    Option α :=
  match index_of stages current with
  | some i => stages.get? (i + 1)
  | none => none

/-! ## `should_transition_stage` -/

/-- The `transition_rules` dictionary of a stage; a missing key is `none`. -/
structure TransitionRules where
  min_turns : Option Nat
  keywords : Option (List Str)
  sentiment_threshold : Option ℚ
  transition_signals : Option (List Str)

/-- Case-insensitive phrase matching used by both managers:
`any(k.lower() in user_input.lower() for k in kws)`. -/
def kwMatch (kws : List Str) (input : Str) : Bool :=
  kws.any fun k => isSub (lowerStr k) (lowerStr input)

/-- Embedding of `core/campaign_manager.py` lines 155-195
(`should_transition_stage`), after the repository lookups: `transcript_len`
is `len(conversation.transcript)`.  The sequential updates of
`conditions_met` and the guards `and conditions_met` are mirrored exactly;
in particular the `transition_signals` block is entered only when
`conditions_met` is still true. -/
def should_transition_stage (rules : TransitionRules) (transcript_len : Nat)
    (user_input : Str) (sentiment_score : Option ℚ) : Bool :=
  let cm1 : Bool :=
    match rules.min_turns with
    | some m => if transcript_len < m then false else true
    | none => true
  let cm2 : Bool :=
    match rules.keywords with
    | some kws => if cm1 then (if kwMatch kws user_input then cm1 else false) else cm1
    | none => cm1
  let cm3 : Bool :=
    match rules.sentiment_threshold, sentiment_score with
    | some thr, some sc => if cm2 then (if sc < thr then false else cm2) else cm2
    | _, _ => cm2
  match rules.transition_signals with
  | some sigs => if cm3 && kwMatch sigs user_input then true else cm3
  | none => cm3

/-- Embedding of `call_agent/campaign_manager.py` lines 66-95
(`should_transition_stage`): each configured check returns `True` on its
own (OR semantics), `False` if none fires; there is no
`transition_signals` check in this variant. -/
def should_transition_stage_agent (rules : TransitionRules)
    (transcript_len : Nat) (user_input : Str) (sentiment_score : Option ℚ) :
    Bool :=
  (match rules.keywords with
   | some kws => kwMatch kws user_input
   | none => false) ||
  (match rules.sentiment_threshold, sentiment_score with
   | some thr, some sc => decide (thr ≤ sc)
   | _, _ => false) ||
  (match rules.min_turns with
   | some m => decide (m ≤ transcript_len)
   | none => false)

/-- Formalised from the spec's words (for comparison with the code): the
AND path of the claimed transition predicate — every configured condition
passes, an absent sentiment score never failing the sentiment check. -/
def spec_and_path (rules : TransitionRules) (transcript_len : Nat)
    (user_input : Str) (sentiment_score : Option ℚ) : Bool :=
  (match rules.min_turns with
   | some m => decide (m ≤ transcript_len)
   | none => true) &&
  (match rules.keywords with
   | some kws => kwMatch kws user_input
   | none => true) &&
  (match rules.sentiment_threshold, sentiment_score with
   | some thr, some sc => decide (thr ≤ sc)
   | _, _ => true)

/-- Formalised from the spec's words: the explicit transition-signal
override — some configured signal phrase matches the utterance. -/
def spec_signal_match (rules : TransitionRules) (user_input : Str) : Bool :=
  match rules.transition_signals with
  | some sigs => kwMatch sigs user_input
  | none => false

/-- Formalised from the spec's words: the claimed overall predicate,
AND path or signal override. -/
def spec_should_transition (rules : TransitionRules) (transcript_len : Nat)
    (user_input : Str) (sentiment_score : Option ℚ) : Bool :=
  spec_and_path rules transcript_len user_input sentiment_score ||
  spec_signal_match rules user_input

/-! ## Script placeholder substitution (`core/campaign_manager.py` 87-93,
`call_agent/campaign_manager.py` 43-49; the replacement loops are
identical) -/

/-- Worker for `replaceAll`, structurally recursive on a fuel argument so
that it reduces in the kernel.  Each step consumes at least one character
(every occurrence of the non-empty pattern has length ≥ 1), so fuel equal
to the length of the string is always enough and the `0` equation is never
reached from `replaceAll`. -/
def replaceAllGo (pat v : Str) : Nat → Str → Str
  | _, [] => []
  | 0, s => s
  | fuel + 1, c :: rest =>
    if !pat.isEmpty && isPrefixL pat (c :: rest) then
      v ++ replaceAllGo pat v fuel ((c :: rest).drop pat.length)
    else
      c :: replaceAllGo pat v fuel rest

/-- Python `s.replace(pat, v)`: replace every occurrence of `pat`,
scanning left to right, non-overlapping.  All call sites in the
substitution loop pass the non-empty pattern `"{" + key + "}"`. -/
def replaceAll (pat v s : Str) : Str := replaceAllGo pat v s.length s

/-- The placeholder text `"{" + key + "}"`. -/
def patOf (key : Str) : Str := '\x7b' :: key ++ ['\x7d']

/-- Embedding of the placeholder-substitution loop of
`get_campaign_script`: for each `(key, value)` of the context, in order,
replace `"{" + key + "}"` by the value. -/
def substitute (script : Str) (ctx : List (Str × Str)) : Str :=
  ctx.foldl (fun s kv => replaceAll (patOf kv.1) kv.2 s) script

/-- A key or value is brace-free when it contains neither `{` nor `}`. -/
def braceFree (s : Str) : Prop := '\x7b' ∉ s ∧ '\x7d' ∉ s

instance (s : Str) : Decidable (braceFree s) := by
  unfold braceFree; infer_instance

/-! ## NLP extraction (`call_agent/nlp_extractor.py`) -/

inductive ExtractionType where
  | keyword
  | pattern
  | entity
  | sentiment
  | intent
deriving DecidableEq, Repr

/-- An extraction rule (`ExtractionRule` dataclass).  The Python defaults
`keywords = None` and `patterns = None` behave exactly like `[]` at every
use (`if not rule.keywords`, `if not rule.patterns`), so both are
modelled as the empty list. -/
structure ExtractionRule where
  field_name : Str
  extraction_type : ExtractionType
  keywords : List Str
  patterns : List Str
  required : Bool
  description : Str
  confidence_threshold : ℚ
deriving DecidableEq, Repr

/-- The `value: Any` of an extraction result: a string or a list of
strings, the only shapes the extractor produces. -/
inductive ExtractedValue where
  | str (s : Str)
  | strs (l : List Str)
deriving DecidableEq, Repr

/-- The `ExtractedData` dataclass. -/
structure ExtractedData where
  field_name : Str
  value : ExtractedValue
  confidence : ℚ
  source_text : Str
  extraction_type : ExtractionType
deriving DecidableEq, Repr

/-- An error raised by the regex engine (`re.error` for a malformed
pattern). -/
structure RegexError where
  msg : Str
deriving DecidableEq, Repr

/-- One item of a `re.findall` result: a plain string (pattern with at
most one group) or a tuple of groups (`matches[0][0]` takes the first). -/
inductive PatMatch where
  | single (s : Str)
  | groups (first : Str) (rest : List Str)
deriving DecidableEq, Repr

/-- Embedding of `_extract_keywords` (lines 80-100): collect the rule
keywords that occur case-insensitively in the text; if any matched,
confidence is `len(found)/len(rule.keywords)` and a datum is returned
when it reaches the threshold. -/
def extract_keywords (text text_lower : Str) (rule : ExtractionRule) :
    Option ExtractedData :=
  if rule.keywords.isEmpty then none
  else
    let found := rule.keywords.filter fun k => isSub (lowerStr k) text_lower
    if found.isEmpty then none
    else
      let confidence := ratDiv found.length rule.keywords.length
      if rule.confidence_threshold ≤ confidence then
        some ⟨rule.field_name, .strs found, confidence, text, rule.extraction_type⟩
      else none

/-- Embedding of `_extract_entities` (lines 125-145): identical matching,
but the value is the first matched keyword (`found_entities[0]`). -/
def extract_entities (text text_lower : Str) (rule : ExtractionRule) :
    Option ExtractedData :=
  if rule.keywords.isEmpty then none
  else
    let found := rule.keywords.filter fun k => isSub (lowerStr k) text_lower
    if found.isEmpty then none
    else
      let confidence := ratDiv found.length rule.keywords.length
      if rule.confidence_threshold ≤ confidence then
        some ⟨rule.field_name, .str found.headI, confidence, text,
          rule.extraction_type⟩
      else none

def positive_words : List Str :=
  [strOf "good", strOf "great", strOf "excellent", strOf "amazing",
   strOf "love", strOf "like", strOf "happy", strOf "satisfied"]

def negative_words : List Str :=
  [strOf "bad", strOf "terrible", strOf "awful", strOf "hate",
   strOf "dislike", strOf "unhappy", strOf "dissatisfied", strOf "problem"]

/-- Embedding of `_extract_sentiment` (lines 147-173). -/
def extract_sentiment (text : Str) (rule : ExtractionRule) :
    Option ExtractedData :=
  let text_lower := lowerStr text
  let positive_count := (positive_words.filter fun w => isSub w text_lower).length
  let negative_count := (negative_words.filter fun w => isSub w text_lower).length
  let sc : Str × ℚ :=
    if negative_count < positive_count then
      (strOf "positive", ratDiv positive_count (positive_count + negative_count + 1))
    else if positive_count < negative_count then
      (strOf "negative", ratDiv negative_count (positive_count + negative_count + 1))
    else
      (strOf "neutral", ratDiv 1 2)
  some ⟨rule.field_name, .str sc.1, sc.2, text, rule.extraction_type⟩

/-- The fixed, ordered intent table of `_extract_intent` (lines 177-183);
a Python dict iterates in insertion order. -/
def intent_keywords : List (Str × List Str) :=
  [(strOf "interested",
    [strOf "interested", strOf "tell me more", strOf "sounds good", strOf "yes"]),
   (strOf "not_interested",
    [strOf "not interested", strOf "no thanks", strOf "not now", strOf "busy"]),
   (strOf "objection",
    [strOf "expensive", strOf "cost", strOf "price", strOf "budget", strOf "think about it"]),
   (strOf "question",
    [strOf "how", strOf "what", strOf "when", strOf "where", strOf "why", strOf "question"]),
   (strOf "request_info",
    [strOf "send", strOf "email", strOf "brochure", strOf "information", strOf "details"])]

/-- The scan loop of `_extract_intent`: first bucket with a keyword
occurring in the lowered text wins. -/
def scan_intents (text_lower : Str) : List (Str × List Str) → Option Str
  | [] => none
  | (intent, kws) :: rest =>
    if kws.any fun k => isSub k text_lower then some intent
    else scan_intents text_lower rest

/-- Embedding of `_extract_intent` (lines 175-202): the first matching
bucket at confidence 0.8, otherwise `"general"` at confidence 0.5. -/
def extract_intent (text text_lower : Str) (rule : ExtractionRule) :
    Option ExtractedData :=
  match scan_intents text_lower intent_keywords with
  | some intent =>
    some ⟨rule.field_name, .str intent, ratDiv 4 5, text, rule.extraction_type⟩
  | none =>
    some ⟨rule.field_name, .str (strOf "general"), ratDiv 1 2, text,
      rule.extraction_type⟩

/-- The `matches.extend(re.findall(pattern, text, re.IGNORECASE))` loop of
`_extract_patterns`; the regex engine is the oracle `findall`, and a
malformed pattern raises out of the loop at once. -/
def collect_matches (findall : Str → Str → Except RegexError (List PatMatch))
    (text : Str) : List Str → Except RegexError (List PatMatch)
  | [] => .ok []
  | p :: ps => do
    let ms ← findall p text
    let rest ← collect_matches findall text ps
    .ok (ms ++ rest)

/-- Embedding of `_extract_patterns` (lines 102-123): no `try/except`
appears in the source, so a regex error propagates. -/
def extract_patterns (findall : Str → Str → Except RegexError (List PatMatch))
    (text : Str) (rule : ExtractionRule) :
    Except RegexError (Option ExtractedData) :=
  if rule.patterns.isEmpty then .ok none
  else do
    let found_matches ← collect_matches findall text rule.patterns
    match found_matches with
    | [] => .ok none
    | m :: _ =>
      let value := match m with | .single s => s | .groups f _ => f
      .ok (some ⟨rule.field_name, .str value, ratDiv 9 10, text, rule.extraction_type⟩)

/-- Embedding of `_apply_extraction_rule` (lines 63-78). -/
def apply_extraction_rule
    (findall : Str → Str → Except RegexError (List PatMatch))
    (text : Str) (rule : ExtractionRule) :
    Except RegexError (Option ExtractedData) :=
  let text_lower := lowerStr text
  match rule.extraction_type with
  | .keyword => .ok (extract_keywords text text_lower rule)
  | .pattern => extract_patterns findall text rule
  | .entity => .ok (extract_entities text text_lower rule)
  | .sentiment => .ok (extract_sentiment text rule)
  | .intent => .ok (extract_intent text text_lower rule)

/-- Python dict assignment `d[k] = v`: update in place when the key
exists (keeping its position), append otherwise. -/
def dictInsert (d : List (Str × ExtractedData)) (k : Str) (v : ExtractedData) :
    List (Str × ExtractedData) :=
  match d with
  | [] => [(k, v)]
  | (k', v') :: rest =>
    if k' = k then (k, v) :: rest else (k', v') :: dictInsert rest k v

/-- The rule loop of `extract_from_text`, threading the accumulated
dictionary; no `try/except` surrounds `_apply_extraction_rule`, so the
first regex error aborts the loop. -/
def extract_go (findall : Str → Str → Except RegexError (List PatMatch))
    (text : Str) : List ExtractionRule → List (Str × ExtractedData) →
    Except RegexError (List (Str × ExtractedData))
  | [], acc => .ok acc
  | rule :: rest, acc => do
    let result ← apply_extraction_rule findall text rule
    match result with
    | some d => extract_go findall text rest (dictInsert acc rule.field_name d)
    | none => extract_go findall text rest acc

/-- Embedding of `extract_from_text` (lines 48-61) for a registered
campaign's rule list (an unregistered campaign id returns `{}`, i.e. the
caller passes `[]`). -/
def extract_from_text (findall : Str → Str → Except RegexError (List PatMatch))
    (text : Str) (rules : List ExtractionRule) :
    Except RegexError (List (Str × ExtractedData)) :=
  extract_go findall text rules []

/-- Formalised from the spec's words (for comparison with the code): the
claimed keyword confidence, distinct matched keywords over total. -/
def spec_keyword_confidence (rule : ExtractionRule) (text : Str) : ℚ :=
  ratDiv (rule.keywords.filter fun k => isSub (lowerStr k) (lowerStr text)).dedup.length
    rule.keywords.length

/-! ## Mid-conversation brain (`call_agent/mid_conversation_brain.py`) -/

inductive AnalysisType where
  | stage_transition
  | objection_handling
  | opportunity_detection
  | risk_assessment
  | next_action
deriving DecidableEq, Repr

/-- The `ConversationAnalysis` dataclass.  The `data_points` field is a
diagnostic payload never read by the instruction logic and is omitted. -/
structure ConversationAnalysis where
  analysis_type : AnalysisType
  confidence : ℚ
  reasoning : Str
  recommended_action : Str
  priority : Nat
deriving DecidableEq, Repr

/-- The `StrategicInstruction` dataclass. -/
structure StrategicInstruction where
  primary_goal : Str
  secondary_goals : List Str
  tone_adjustment : Str
  focus_areas : List Str
  avoid_topics : List Str
  next_questions : List Str
  urgency_level : Nat
  risk_level : Nat
deriving DecidableEq, Repr

/-- The brain reads `extracted_data` as a dict whose entries answer
`.get('value')`; an entry is `(field, value)` with `none` when no value
is available. -/
abbrev BrainData := List (Str × Option Str)

/-- The parts of `conversation_state` the brain reads. -/
structure ConversationState where
  current_stage : Str
  required_data : List (Str × Bool)

/-- The parts of `campaign_context` the pipeline reads (via `.get` with
defaults); the brain itself never inspects it. -/
structure CampaignContext where
  campaign_type : Str
  contact_name : Str
  contact_company : Str
  current_script : Str

/-- Python dict lookup on an association list with unique keys. -/
def dictFind? {α : Type} (d : List (Str × α)) (k : Str) : Option α :=
  (d.find? fun p => p.1 = k).map (·.2)

/-- Python `sep.join(words)`. -/
def joinSep (sep : Str) : List Str → Str
  | [] => []
  | [w] => w
  | w :: ws => w ++ sep ++ joinSep sep ws

/-- Embedding of `_analyze_stage_transition` (lines 91-118): an analysis
of priority 7 when no required field is missing from the extracted
data. -/
def analyze_stage_transition (extracted : BrainData) (cs : ConversationState) :
    Option ConversationAnalysis :=
  let missing_required :=
    (cs.required_data.filter fun p =>
      p.2 && !(extracted.any fun q => decide (q.1 = p.1))).map (·.1)
  if missing_required.isEmpty then
    some { analysis_type := .stage_transition
           confidence := ratDiv 4 5
           reasoning := strOf "All required data for " ++ cs.current_stage ++
             strOf " stage has been collected"
           recommended_action := strOf "transition_to_next_stage"
           priority := 7 }
  else none

/-- The fixed objection keyword set of `_analyze_objections` (line 122). -/
def objection_keywords : List Str :=
  [strOf "expensive", strOf "cost", strOf "price", strOf "budget",
   strOf "think about it", strOf "not sure", strOf "concerned"]

/-- Embedding of `_analyze_objections` (lines 120-145): a priority-9
analysis when any objection keyword occurs in the lowered utterance. -/
def analyze_objections (_extracted : BrainData) (user_input : Str) :
    Option ConversationAnalysis :=
  let user_input_lower := lowerStr user_input
  match objection_keywords.filter fun k => isSub k user_input_lower with
  | [] => none
  | f :: fs =>
    some { analysis_type := .objection_handling
           confidence := ratMul (ratDiv (f :: fs).length objection_keywords.length)
             (ratDiv 4 5)
           reasoning := strOf "Customer expressed objections: " ++
             joinSep (strOf ", ") (f :: fs)
           recommended_action := strOf "address_objections"
           priority := 9 }

/-- Embedding of `_analyze_opportunities` (lines 147-182): a priority-8
analysis when any opportunity marker fires. -/
def analyze_opportunities (extracted : BrainData) (_cs : ConversationState) :
    Option ConversationAnalysis :=
  let o1 : List Str :=
    match dictFind? extracted (strOf "intent") with
    | some (some v) => if v = strOf "interested" then [strOf "buying_signal"] else []
    | _ => []
  let o2 : List Str :=
    if (dictFind? extracted (strOf "budget_range")).isSome then
      [strOf "budget_disclosed"] else []
  let o3 : List Str :=
    if (dictFind? extracted (strOf "decision_maker")).isSome then
      [strOf "decision_maker_identified"] else []
  let o4 : List Str :=
    match dictFind? extracted (strOf "timeline") with
    | some v =>
      if isSub (strOf "urgent") (lowerStr (v.getD [])) then
        [strOf "urgency_indicated"] else []
    | none => []
  match o1 ++ o2 ++ o3 ++ o4 with
  | [] => none
  | f :: fs =>
    some { analysis_type := .opportunity_detection
           confidence := ratDiv 7 10
           reasoning := strOf "Detected opportunities: " ++ joinSep (strOf ", ") (f :: fs)
           recommended_action := strOf "capitalize_on_opportunities"
           priority := 8 }

/-- Embedding of `_analyze_risks` (lines 184-215): a priority-6 analysis
when any risk marker fires. -/
def analyze_risks (extracted : BrainData) (user_input : Str) :
    Option ConversationAnalysis :=
  let r1 : List Str :=
    match dictFind? extracted (strOf "sentiment") with
    | some (some v) => if v = strOf "negative" then [strOf "negative_sentiment"] else []
    | _ => []
  let r2 : List Str :=
    match dictFind? extracted (strOf "intent") with
    | some (some v) => if v = strOf "not_interested" then [strOf "disinterest"] else []
    | _ => []
  let r3 : List Str :=
    if isSub (strOf "busy") (lowerStr user_input) ||
        isSub (strOf "time") (lowerStr user_input) then
      [strOf "time_pressure"] else []
  match r1 ++ r2 ++ r3 with
  | [] => none
  | f :: fs =>
    some { analysis_type := .risk_assessment
           confidence := ratDiv 3 5
           reasoning := strOf "Identified risks: " ++ joinSep (strOf ", ") (f :: fs)
           recommended_action := strOf "mitigate_risks"
           priority := 6 }

/-- Stable descending insertion by priority: an element is placed after
every earlier element of priority ≥ its own. -/
def insertDesc (a : ConversationAnalysis) :
    List ConversationAnalysis → List ConversationAnalysis
  | [] => [a]
  | b :: rest =>
    if b.priority < a.priority then a :: b :: rest else b :: insertDesc a rest

/-- Python `sorted(analyses, key=lambda x: x.priority, reverse=True)`:
a stable descending sort by priority (`sorted` is stable, and insertion
with a strict comparison yields the same stable arrangement). -/
def sortDesc (l : List ConversationAnalysis) : List ConversationAnalysis :=
  l.foldl (fun acc a => insertDesc a acc) []

/-- Embedding of `_determine_primary_goal` (lines 259-275); the
`NEXT_ACTION` case falls through to `"continue_conversation"`. -/
def determine_primary_goal (analyses : List ConversationAnalysis)
    (_cc : CampaignContext) : Str :=
  match analyses with
  | [] => strOf "continue_conversation"
  | top :: _ =>
    match top.analysis_type with
    | .objection_handling => strOf "address_objections"
    | .opportunity_detection => strOf "capitalize_on_opportunities"
    | .stage_transition => strOf "transition_stage"
    | .risk_assessment => strOf "mitigate_risks"
    | .next_action => strOf "continue_conversation"

/-- Embedding of `_determine_secondary_goals` (lines 277-289):
`analyses[1:3]` mapped through the fixed table. -/
def determine_secondary_goals (analyses : List ConversationAnalysis)
    (_cc : CampaignContext) : List Str :=
  ((analyses.drop 1).take 2).filterMap fun a =>
    match a.analysis_type with
    | .objection_handling => some (strOf "build_trust")
    | .opportunity_detection => some (strOf "gather_more_info")
    | .stage_transition => some (strOf "prepare_next_stage")
    | _ => none

/-- Embedding of `_determine_tone_adjustment` (lines 291-301). -/
def determine_tone_adjustment (analyses : List ConversationAnalysis) : Str :=
  (analyses.findSome? fun a =>
    match a.analysis_type with
    | .objection_handling => some (strOf "empathetic_and_understanding")
    | .risk_assessment => some (strOf "calm_and_reassuring")
    | .opportunity_detection => some (strOf "enthusiastic_and_engaging")
    | _ => none).getD (strOf "professional_and_friendly")

/-- Embedding of `_determine_focus_areas` (lines 303-315). -/
def determine_focus_areas (analyses : List ConversationAnalysis) : List Str :=
  analyses.filterMap fun a =>
    match a.analysis_type with
    | .objection_handling => some (strOf "addressing_concerns")
    | .opportunity_detection => some (strOf "exploring_opportunities")
    | .stage_transition => some (strOf "stage_progression")
    | _ => none

/-- Embedding of `_determine_avoid_topics` (lines 317-326). -/
def determine_avoid_topics (analyses : List ConversationAnalysis) : List Str :=
  analyses.foldl (fun acc a =>
    match a.analysis_type with
    | .risk_assessment => acc ++ [strOf "pricing_details", strOf "pressure_tactics"]
    | _ => acc) []

/-- Embedding of `_generate_next_questions` (lines 328-340). -/
def generate_next_questions (analyses : List ConversationAnalysis)
    (_cs : ConversationState) : List Str :=
  analyses.filterMap fun a =>
    match a.analysis_type with
    | .objection_handling =>
      some (strOf "What specific concerns do you have about our solution?")
    | .opportunity_detection =>
      some (strOf "What would be the ideal timeline for implementation?")
    | .stage_transition =>
      some (strOf "Are you ready to discuss the next steps?")
    | _ => none

/-- Embedding of `_calculate_urgency_level` (lines 342-352): base 5, +2
per opportunity analysis, +1 per risk analysis, capped at 10 at the
end. -/
def calculate_urgency_level (analyses : List ConversationAnalysis) : Nat :=
  min (analyses.foldl (fun u a =>
    match a.analysis_type with
    | .opportunity_detection => u + 2
    | .risk_assessment => u + 1
    | _ => u) 5) 10

/-- Embedding of `_calculate_risk_level` (lines 354-364): base 3, +3 per
risk analysis, +2 per objection analysis, capped at 10 at the end. -/
def calculate_risk_level (analyses : List ConversationAnalysis) : Nat :=
  min (analyses.foldl (fun r a =>
    match a.analysis_type with
    | .risk_assessment => r + 3
    | .objection_handling => r + 2
    | _ => r) 3) 10

/-- Embedding of `_generate_strategic_instruction` (lines 217-257). -/
def generate_strategic_instruction (analyses : List ConversationAnalysis)
    (cc : CampaignContext) (cs : ConversationState) : StrategicInstruction :=
  let sorted_analyses := sortDesc analyses
  { primary_goal := determine_primary_goal sorted_analyses cc
    secondary_goals := determine_secondary_goals sorted_analyses cc
    tone_adjustment := determine_tone_adjustment sorted_analyses
    focus_areas := determine_focus_areas sorted_analyses
    avoid_topics := determine_avoid_topics sorted_analyses
    next_questions := generate_next_questions sorted_analyses cs
    urgency_level := calculate_urgency_level sorted_analyses
    risk_level := calculate_risk_level sorted_analyses }

def optList {α : Type} : Option α → List α
  | some a => [a]
  | none => []

/-- Embedding of the pure part of `analyze_conversation` (lines 46-89):
run the four analyzers in order, collect the produced analyses, generate
the instruction (the history bookkeeping has no effect on the result). -/
def analyze_conversation (user_input : Str) (extracted : BrainData)
    (cc : CampaignContext) (cs : ConversationState) : StrategicInstruction :=
  let analyses :=
    optList (analyze_stage_transition extracted cs) ++
    optList (analyze_objections extracted user_input) ++
    optList (analyze_opportunities extracted cs) ++
    optList (analyze_risks extracted user_input)
  generate_strategic_instruction analyses cc cs

/-! ## Fine-tuned LLM and pipeline (`call_agent/finetuned_llm.py`,
`call_agent/conversation_pipeline.py`) -/

inductive CampaignType where
  | sales
  | support
  | survey
  | appointment
deriving DecidableEq, Repr

inductive PersonalityType where
  | professional_friendly
  | empathetic_understanding
  | enthusiastic_engaging
  | calm_reassuring
  | consultative
deriving DecidableEq, Repr

/-- Python `CampaignType(s)`: `ValueError` (modelled as `.error ()`) for
a string that is not an enum value. -/
def campaign_type_of_str (s : Str) : Except Unit CampaignType :=
  if s = strOf "sales" then .ok .sales
  else if s = strOf "support" then .ok .support
  else if s = strOf "survey" then .ok .survey
  else if s = strOf "appointment" then .ok .appointment
  else .error ()

/-- Python `PersonalityType(s)` as a partial lookup (the caller wraps it
in `try/except` and falls back to `PROFESSIONAL_FRIENDLY`). -/
def personality_type_of_str (s : Str) : Option PersonalityType :=
  if s = strOf "professional_friendly" then some .professional_friendly
  else if s = strOf "empathetic_understanding" then some .empathetic_understanding
  else if s = strOf "enthusiastic_engaging" then some .enthusiastic_engaging
  else if s = strOf "calm_reassuring" then some .calm_reassuring
  else if s = strOf "consultative" then some .consultative
  else none

/-- An error from the chat model call (`self.chat.invoke`). -/
structure LLMError where
  msg : Str
deriving DecidableEq, Repr

/-- The parts of `LLMContext` read by the embedded functions; the
prompt-only fields (`conversation_history` and the instruction text
builders) reach the chat model only through the oracle. -/
structure LLMContext where
  campaign_type : CampaignType
  personality_type : PersonalityType
  strategic_instruction : StrategicInstruction
  extracted_data : List (Str × ExtractedData)
  campaign_script : Str
  contact_name : Str
  contact_company : Str
  current_stage : Str
deriving DecidableEq, Repr

/-- Embedding of `_get_fallback_response` (lines 321-330); the dict
covers every `CampaignType`, so the `.get` default
`"I understand. How can I help you?"` is unreachable. -/
def get_fallback_response (context : LLMContext) : Str :=
  match context.campaign_type with
  | .sales => strOf "I understand. Could you tell me more about your current situation?"
  | .support => strOf "I apologize for the technical issue. Let me help you with that."
  | .survey => strOf "Thank you for your time. Let me continue with the next question."
  | .appointment => strOf "I understand. Let me help you find a better time."

def isPySpace (c : Char) : Bool :=
  c = ' ' || c = '\t' || c = '\n' || c = '\r' || c = '\x0b' || c = '\x0c'

/-- Worker for Python `s.split()` (split on whitespace runs, dropping
empties); `cur` is the current word, reversed. -/
def splitWsGo (cur : Str) : Str → List Str
  | [] => if cur.isEmpty then [] else [cur.reverse]
  | c :: rest =>
    if isPySpace c then
      if cur.isEmpty then splitWsGo [] rest
      else cur.reverse :: splitWsGo [] rest
    else splitWsGo (c :: cur) rest

def splitWs (s : Str) : List Str := splitWsGo [] s

/-- Python `' '.join(content.replace('\n', ' ').split())`. -/
def normalizeWs (content : Str) : Str :=
  joinSep [' '] (splitWs (content.map fun c => if c = '\n' then ' ' else c))

/-- Embedding of `generate_response` (lines 72-87): the chat-model
outcome is the oracle `invoke`; on success the whitespace-normalised
content, on any exception the campaign-type fallback. -/
def generate_response (invoke : Except LLMError Str) (context : LLMContext) :
    Str :=
  match invoke with
  | .ok content => normalizeWs content
  | .error _ => get_fallback_response context

/-- Worker for Python `s.split('.')` (keeps empty pieces). -/
def splitOnDotGo (cur : Str) : Str → List Str
  | [] => [cur.reverse]
  | c :: rest =>
    if c = '.' then cur.reverse :: splitOnDotGo [] rest
    else splitOnDotGo (c :: cur) rest

def splitOnDot (s : Str) : List Str := splitOnDotGo [] s

/-- Embedding of `get_response_quality_score` (lines 332-351). -/
def get_response_quality_score (response : Str) (context : LLMContext) : ℚ :=
  let s1 : ℚ := ratDiv 1 2
  let sentences := splitOnDot response
  let s2 := if 2 ≤ sentences.length ∧ sentences.length ≤ 4 then
    ratAdd s1 (ratDiv 1 5) else s1
  let s3 :=
    if isSub context.strategic_instruction.primary_goal (lowerStr response)
    then ratAdd s2 (ratDiv 1 5) else s2
  let s4 :=
    if isSub context.strategic_instruction.tone_adjustment (lowerStr response)
    then ratAdd s3 (ratDiv 1 10) else s3
  min s4 1

/-- An exception inside the pipeline body: a regex error from extraction,
the `ValueError` of `CampaignType(...)`, the `AttributeError` of calling
`.get` on an `ExtractedData` dataclass, or any other raised error. -/
inductive PipeErr where
  | regex (e : RegexError)
  | valueError
  | attributeError
deriving DecidableEq, Repr

/-- Embedding of `_build_llm_context` (lines 191-228): `CampaignType` of
the lowered `campaign_type` string (raising on an unknown value), the
personality parsed from the tone with a `try/except` fallback (the
`.replace('_', '_')` in the source is a no-op). -/
def build_llm_context (extracted : List (Str × ExtractedData))
    (instr : StrategicInstruction) (cc : CampaignContext)
    (cs : ConversationState) : Except PipeErr LLMContext :=
  match campaign_type_of_str (lowerStr cc.campaign_type) with
  | .error _ => .error .valueError
  | .ok ct =>
    .ok { campaign_type := ct
          personality_type :=
            (personality_type_of_str (lowerStr instr.tone_adjustment)).getD
              .professional_friendly
          strategic_instruction := instr
          extracted_data := extracted
          campaign_script := cc.current_script
          contact_name := cc.contact_name
          contact_company := cc.contact_company
          current_stage := cs.current_stage }

/-- The brain step as the pipeline actually invokes it: the extractor
hands over `ExtractedData` dataclasses, and the brain's
`extracted_data[...].get('value')` raises `AttributeError` as soon as one
of the fields `intent`, `timeline` or `sentiment` is present (those are
the only fields whose value it reads); otherwise the analyzers only test
membership and the utterance, and the pure brain result is exact. -/
def analyze_conversation_in_pipeline (user_input : Str)
    (extracted : List (Str × ExtractedData)) (cc : CampaignContext)
    (cs : ConversationState) : Except PipeErr StrategicInstruction :=
  if (extracted.any fun p => decide (p.1 = strOf "intent")) ||
      (extracted.any fun p => decide (p.1 = strOf "timeline")) ||
      (extracted.any fun p => decide (p.1 = strOf "sentiment")) then
    .error .attributeError
  else
    .ok (analyze_conversation user_input
      (extracted.map fun p => (p.1, (none : Option Str))) cc cs)

/-- The fields of `PipelineResult` that carry program data
(`processing_time` is wall-clock time and `pipeline_metadata` is
bookkeeping; neither is statable here). -/
structure PipelineResult where
  user_input : Str
  extracted_data : List (Str × ExtractedData)
  strategic_instruction : StrategicInstruction
  llm_response : Str
  response_quality_score : ℚ
deriving DecidableEq, Repr

/-- Embedding of `_create_fallback_result` (lines 230-251). -/
def create_fallback_result (user_input : Str) : PipelineResult :=
  { user_input := user_input
    extracted_data := []
    strategic_instruction :=
      { primary_goal := strOf "continue_conversation"
        secondary_goals := []
        tone_adjustment := strOf "professional_friendly"
        focus_areas := []
        avoid_topics := []
        next_questions := []
        urgency_level := 5
        risk_level := 3 }
    llm_response := strOf
      "I apologize, but I\x27m having trouble processing that right now. Could you please repeat?"
    response_quality_score := ratDiv 3 10 }

/-- The `try` body of `process_user_input` (lines 59-128): extraction,
brain analysis, context building, response generation and scoring, with
every internal exception surfacing as a `PipeErr`. -/
def pipeline_body (findall : Str → Str → Except RegexError (List PatMatch))
    (rules : List ExtractionRule) (user_input : Str) (cc : CampaignContext)
    (cs : ConversationState) (invoke : Except LLMError Str) :
    Except PipeErr PipelineResult := do
  let extracted ←
    (extract_from_text findall user_input rules).mapError PipeErr.regex
  let instr ← analyze_conversation_in_pipeline user_input extracted cc cs
  let ctx ← build_llm_context extracted instr cc cs
  let resp := generate_response invoke ctx
  let score := get_response_quality_score resp ctx
  .ok { user_input := user_input
        extracted_data := extracted
        strategic_instruction := instr
        llm_response := resp
        response_quality_score := score }

/-- Embedding of `process_user_input` (lines 51-133): the whole body is
wrapped in `try/except Exception`, every exception degrading to
`_create_fallback_result`. -/
def process_user_input (findall : Str → Str → Except RegexError (List PatMatch))
    (rules : List ExtractionRule) (user_input : Str) (cc : CampaignContext)
    (cs : ConversationState) (invoke : Except LLMError Str) : PipelineResult :=
  match pipeline_body findall rules user_input cc cs invoke with
  | .ok r => r
  | .error _ => create_fallback_result user_input

/-! ## Lemmas about the string model -/

lemma isPrefixL_iff (p : Str) : ∀ s : Str, isPrefixL p s = true ↔ p <+: s := by
  induction p with
  | nil => intro s; simp [isPrefixL]
  | cons a ps ih =>
    intro s
    cases s with
    | nil => simp [isPrefixL]
    | cons b ss => simp [isPrefixL, List.cons_prefix_cons, ih]

lemma isSub_iff (p : Str) : ∀ s : Str, isSub p s = true ↔ p <:+: s := by
  intro s
  induction s with
  | nil => simp [isSub, List.isEmpty_iff]
  | cons c rest ih => simp [isSub, isPrefixL_iff, ih, List.infix_cons_iff]

lemma replaceAllGo_of_not_sub (pat v : Str) :
    ∀ (s : Str) (fuel : Nat), isSub pat s = false →
      replaceAllGo pat v fuel s = s := by
  intro s
  induction s with
  | nil => intro fuel _; cases fuel <;> rfl
  | cons c rest ih =>
    intro fuel h
    simp only [isSub, Bool.or_eq_false_iff] at h
    obtain ⟨h1, h2⟩ := h
    cases fuel with
    | zero => rfl
    | succ f =>
      simp only [replaceAllGo, h1, Bool.and_false, Bool.false_eq_true, if_false]
      rw [ih f h2]

lemma replaceAll_of_not_sub (pat v s : Str) (h : isSub pat s = false) :
    replaceAll pat v s = s :=
  replaceAllGo_of_not_sub pat v s s.length h

lemma substitute_cons (s : Str) (kv : Str × Str) (ctx : List (Str × Str)) :
    substitute s (kv :: ctx) = substitute (replaceAll (patOf kv.1) kv.2 s) ctx :=
  rfl

lemma substitute_of_not_sub :
    ∀ (ctx : List (Str × Str)) (t : Str),
      (∀ kv ∈ ctx, isSub (patOf kv.1) t = false) → substitute t ctx = t := by
  intro ctx
  induction ctx with
  | nil => intro t _; rfl
  | cons kv rest ih =>
    intro t h
    rw [substitute_cons, replaceAll_of_not_sub _ _ _ (h kv (by simp)),
      ih t (fun kv' h' => h kv' (by simp [h']))]

lemma braceFree_cons (a : Char) (s : Str) (h : braceFree (a :: s)) :
    braceFree s ∧ a ≠ '\x7b' ∧ a ≠ '\x7d' := by
  obtain ⟨h1, h2⟩ := h
  refine ⟨⟨fun hm => h1 (List.mem_cons_of_mem _ hm),
    fun hm => h2 (List.mem_cons_of_mem _ hm)⟩, ?_, ?_⟩
  · rintro rfl; exact h1 (List.mem_cons_self _ _)
  · rintro rfl; exact h2 (List.mem_cons_self _ _)

lemma key_close_eq :
    ∀ (k K post : Str), braceFree k → braceFree K →
      k ++ '\x7d' :: post = K ++ ['\x7d'] → k = K := by
  intro k
  induction k with
  | nil =>
    intro K post _ hK h
    cases K with
    | nil => rfl
    | cons c K' =>
      simp only [List.nil_append, List.cons_append] at h
      injection h with h1 _
      exact absurd (h1 ▸ List.mem_cons_self c K') (h1 ▸ hK.2)
  | cons a k' ih =>
    intro K post hk hK h
    cases K with
    | nil =>
      simp only [List.cons_append, List.nil_append] at h
      injection h with h1 _
      exact absurd (h1 ▸ List.mem_cons_self a k') (h1 ▸ hk.2)
    | cons c K' =>
      simp only [List.cons_append] at h
      injection h with h1 h2
      subst h1
      rw [ih K' post (braceFree_cons a k' hk).1 (braceFree_cons a K' hK).1 h2]

lemma patOf_infix_eq (k K : Str) (hk : braceFree k) (hK : braceFree K)
    (h : patOf k <:+: patOf K) : k = K := by
  obtain ⟨s, t, heq⟩ := h
  cases s with
  | nil =>
    simp only [List.nil_append, patOf, List.cons_append, List.append_assoc,
      List.singleton_append] at heq
    injection heq with _ h2
    exact key_close_eq k K t hk hK h2
  | cons c s' =>
    simp only [patOf, List.cons_append] at heq
    injection heq with _ h2
    have hmem : '\x7b' ∈ K ++ ['\x7d'] := by
      have hin : '\x7b' ∈ s' ++ '\x7b' :: (k ++ ['\x7d']) ++ t := by
        simp [List.mem_append]
      rwa [h2] at hin
    rcases List.mem_append.mp hmem with hm | hm
    · exact absurd hm hK.1
    · simp only [List.mem_singleton] at hm
      exact absurd hm (by decide)

/-! ## Lemmas about `index_of` -/

lemma index_of_of_not_mem {α : Type} [DecidableEq α] :
    ∀ (l : List α) (x : α), x ∉ l → index_of l x = none := by
  intro l x
  induction l with
  | nil => intro _; rfl
  | cons a rest ih =>
    intro h
    have hax : ¬ a = x := fun he => h (he ▸ List.mem_cons_self a rest)
    simp [index_of, hax, ih (fun hm => h (List.mem_cons_of_mem _ hm))]

lemma index_of_nodup_get? {α : Type} [DecidableEq α] :
    ∀ (l : List α) (x : α), l.Nodup → ∀ i : Nat, l.get? i = some x →
      index_of l x = some i := by
  intro l x
  induction l with
  | nil => intro _ i h; simp at h
  | cons a rest ih =>
    intro hnd i h
    rcases List.nodup_cons.mp hnd with ⟨hna, hnd'⟩
    cases i with
    | zero =>
      simp only [List.get?_cons_zero, Option.some.injEq] at h
      simp [index_of, h]
    | succ j =>
      simp only [List.get?_cons_succ] at h
      have hax : ¬ a = x := by
        rintro rfl
        exact hna (List.get?_mem h)
      simp [index_of, hax, ih hnd' j h]

/-! ## Lemmas about the priority sort -/

lemma mem_insertDesc (x a : ConversationAnalysis) :
    ∀ l, x ∈ insertDesc a l ↔ x = a ∨ x ∈ l := by
  intro l
  induction l with
  | nil => simp [insertDesc]
  | cons b rest ih =>
    by_cases h : b.priority < a.priority
    · simp [insertDesc, h]
    · simp [insertDesc, h, ih]
      tauto

lemma mem_foldl_insertDesc (x : ConversationAnalysis) :
    ∀ (l acc : List ConversationAnalysis),
      x ∈ l.foldl (fun acc a => insertDesc a acc) acc ↔ x ∈ acc ∨ x ∈ l := by
  intro l
  induction l with
  | nil => intro acc; simp
  | cons a rest ih =>
    intro acc
    rw [List.foldl_cons, ih, mem_insertDesc]
    simp
    tauto

lemma mem_sortDesc (x : ConversationAnalysis) (l : List ConversationAnalysis) :
    x ∈ sortDesc l ↔ x ∈ l := by
  simp [sortDesc, mem_foldl_insertDesc]

/-- The head of a list is a maximal-priority member. -/
def maxHead (l : List ConversationAnalysis) : Prop :=
  ∀ top, l.head? = some top → ∀ x ∈ l, x.priority ≤ top.priority

lemma maxHead_insertDesc (a : ConversationAnalysis) :
    ∀ l, maxHead l → maxHead (insertDesc a l) := by
  intro l
  cases l with
  | nil =>
    intro _ top htop x hx
    simp [insertDesc] at htop hx
    simp [htop ▸ hx]
  | cons b rest =>
    intro h top htop x hx
    by_cases hba : b.priority < a.priority
    · simp only [insertDesc, if_pos hba] at htop hx
      simp only [List.head?_cons, Option.some.injEq] at htop
      subst htop
      rcases List.mem_cons.mp hx with rfl | hx'
      · exact le_refl _
      · exact le_of_lt (lt_of_le_of_lt
          (h b rfl x hx') hba)
    · simp only [insertDesc, if_neg hba] at htop hx
      simp only [List.head?_cons, Option.some.injEq] at htop
      subst htop
      rcases List.mem_cons.mp hx with rfl | hx'
      · exact le_refl _
      · rcases (mem_insertDesc x a rest).mp hx' with rfl | hx''
        · exact Nat.le_of_not_lt hba
        · exact h b rfl x (List.mem_cons_of_mem _ hx'')

lemma maxHead_foldl :
    ∀ (l acc : List ConversationAnalysis), maxHead acc →
      maxHead (l.foldl (fun acc a => insertDesc a acc) acc) := by
  intro l
  induction l with
  | nil => intro acc h; exact h
  | cons a rest ih =>
    intro acc h
    rw [List.foldl_cons]
    exact ih _ (maxHead_insertDesc a acc h)

lemma maxHead_sortDesc (l : List ConversationAnalysis) : maxHead (sortDesc l) :=
  maxHead_foldl l [] (by intro top htop x hx; simp at htop)

lemma sortDesc_ne_nil (l : List ConversationAnalysis) (h : l ≠ []) :
    sortDesc l ≠ [] := by
  cases l with
  | nil => exact absurd rfl h
  | cons a rest =>
    intro hnil
    have : a ∈ sortDesc (a :: rest) :=
      (mem_sortDesc a _).mpr (List.mem_cons_self a rest)
    rw [hnil] at this
    exact absurd this (List.not_mem_nil a)

/-! ## Counting analyses by type -/

def countType (t : AnalysisType) : List ConversationAnalysis → Nat
  | [] => 0
  | a :: rest => (if a.analysis_type = t then 1 else 0) + countType t rest

lemma countType_insertDesc (t : AnalysisType) (a : ConversationAnalysis) :
    ∀ l, countType t (insertDesc a l) =
      (if a.analysis_type = t then 1 else 0) + countType t l := by
  intro l
  induction l with
  | nil => simp [insertDesc, countType]
  | cons b rest ih =>
    by_cases h : b.priority < a.priority <;> simp [insertDesc, h, countType, ih]
    omega

lemma countType_foldl (t : AnalysisType) :
    ∀ (l acc : List ConversationAnalysis),
      countType t (l.foldl (fun acc a => insertDesc a acc) acc) =
        countType t acc + countType t l := by
  intro l
  induction l with
  | nil => intro acc; simp [countType]
  | cons a rest ih =>
    intro acc
    rw [List.foldl_cons, ih, countType_insertDesc, countType]
    omega

lemma countType_sortDesc (t : AnalysisType) (l : List ConversationAnalysis) :
    countType t (sortDesc l) = countType t l := by
  rw [sortDesc, countType_foldl]
  simp [countType]

lemma urgency_foldl :
    ∀ (l : List ConversationAnalysis) (n : Nat),
      l.foldl (fun u a =>
        match a.analysis_type with
        | .opportunity_detection => u + 2
        | .risk_assessment => u + 1
        | _ => u) n =
      n + 2 * countType .opportunity_detection l +
        countType .risk_assessment l := by
  intro l
  induction l with
  | nil => intro n; simp [countType]
  | cons a rest ih =>
    intro n
    rw [List.foldl_cons, ih]
    cases h : a.analysis_type <;> simp [countType, h] <;> omega

lemma risk_foldl :
    ∀ (l : List ConversationAnalysis) (n : Nat),
      l.foldl (fun r a =>
        match a.analysis_type with
        | .risk_assessment => r + 3
        | .objection_handling => r + 2
        | _ => r) n =
      n + 3 * countType .risk_assessment l +
        2 * countType .objection_handling l := by
  intro l
  induction l with
  | nil => intro n; simp [countType]
  | cons a rest ih =>
    intro n
    rw [List.foldl_cons, ih]
    cases h : a.analysis_type <;> simp [countType, h] <;> omega

lemma calculate_urgency_level_eq (l : List ConversationAnalysis) :
    calculate_urgency_level l =
      min (5 + 2 * countType .opportunity_detection l +
        countType .risk_assessment l) 10 := by
  rw [calculate_urgency_level, urgency_foldl]

lemma calculate_risk_level_eq (l : List ConversationAnalysis) :
    calculate_risk_level l =
      min (3 + 3 * countType .risk_assessment l +
        2 * countType .objection_handling l) 10 := by
  rw [calculate_risk_level, risk_foldl]

/-! ## Miscellaneous helper lemmas -/

lemma except_bind_ok {ε α β : Type} (a : α) (f : α → Except ε β) :
    (Except.ok a >>= f) = f a := rfl

lemma except_bind_error {ε α β : Type} (e : ε) (f : α → Except ε β) :
    ((Except.error e : Except ε α) >>= f) = Except.error e := rfl

lemma scan_intents_eq (tl : Str) :
    ∀ l : List (Str × List Str), scan_intents tl l =
      (l.find? fun p => p.2.any fun k => isSub k tl).map (·.1) := by
  intro l
  induction l with
  | nil => rfl
  | cons p rest ih =>
    rcases p with ⟨i, kws⟩
    by_cases h : (kws.any fun k => isSub k tl) = true
    · simp [scan_intents, h, List.find?_cons_of_pos]
    · simp only [Bool.not_eq_true] at h
      simp [scan_intents, h, List.find?_cons_of_neg, ih]

lemma extract_go_error (findall : Str → Str → Except RegexError (List PatMatch))
    (text : Str) (bad : ExtractionRule) (post : List ExtractionRule)
    (err : RegexError)
    (hbad : apply_extraction_rule findall text bad = .error err) :
    ∀ (pre : List ExtractionRule) (acc : List (Str × ExtractedData)),
      (∀ r ∈ pre, ∃ x, apply_extraction_rule findall text r = .ok x) →
      extract_go findall text (pre ++ bad :: post) acc = .error err := by
  intro pre
  induction pre with
  | nil =>
    intro acc _
    simp only [List.nil_append, extract_go, hbad, except_bind_error]
  | cons r pre' ih =>
    intro acc h
    obtain ⟨x, hx⟩ := h r (List.mem_cons_self r pre')
    simp only [List.cons_append, extract_go, hx, except_bind_ok]
    cases x with
    | some d => exact ih _ (fun r' hr' => h r' (List.mem_cons_of_mem _ hr'))
    | none => exact ih _ (fun r' hr' => h r' (List.mem_cons_of_mem _ hr'))

/-! ## Claim theorems -/

/-- Claim C9, counterexample: with duplicate stages,
`[introduction, needs_assessment, introduction]`, the current stage
`introduction` IS the last stage of the list, yet `get_next_stage` does
not return `none`: indexing from the first occurrence it returns
`needs_assessment` — so iteration can repeat indices instead of strictly
advancing. -/
theorem claim_C9_counterexample :
    [CampaignStage.introduction, CampaignStage.needs_assessment,
      CampaignStage.introduction].getLast? = some CampaignStage.introduction ∧
    get_next_stage
      [CampaignStage.introduction, CampaignStage.needs_assessment,
        CampaignStage.introduction] CampaignStage.introduction =
      some CampaignStage.needs_assessment := by
  exact ⟨rfl, rfl⟩

/-- Claim C9, amended: for a duplicate-free stage list, `getNextStage` of
the stage at index `i` is exactly the entry at index `i + 1` (hence the
stage immediately after, `none` at the last index, and strictly
increasing, never skipping or repeating, under iteration), and a stage
that is not a member yields `none` (and the function is total: the
`ValueError` of `list.index` is the `none` branch). -/
theorem claim_C9 {α : Type} [DecidableEq α] (stages : List α) (current : α) :
    (current ∉ stages → get_next_stage stages current = none) ∧
    (stages.Nodup → ∀ i : Nat, stages.get? i = some current →
      get_next_stage stages current = stages.get? (i + 1)) := by
  constructor
  · intro h
    rw [get_next_stage, index_of_of_not_mem stages current h]
  · intro hnd i hi
    rw [get_next_stage, index_of_nodup_get? stages current hnd i hi]

/-- Claim C9, witness: on the duplicate-free list
`[introduction, needs_assessment, closing]` the successor of
`needs_assessment` is `closing`, and `follow_up` (not a member) yields
`none`. -/
theorem claim_C9_witness :
    get_next_stage [CampaignStage.introduction, CampaignStage.needs_assessment,
      CampaignStage.closing] CampaignStage.needs_assessment =
      some CampaignStage.closing ∧
    get_next_stage [CampaignStage.introduction, CampaignStage.needs_assessment,
      CampaignStage.closing] CampaignStage.follow_up = none := by
  constructor
  · exact ((claim_C9 [CampaignStage.introduction, CampaignStage.needs_assessment,
      CampaignStage.closing] CampaignStage.needs_assessment).2 (by decide) 1
        rfl).trans (by rfl)
  · exact (claim_C9 [CampaignStage.introduction, CampaignStage.needs_assessment,
      CampaignStage.closing] CampaignStage.follow_up).1 (by decide)

/-- Claim C4, counterexample: substitution is not idempotent for every
context — with template `"{a}"` and context `a ↦ "{a}x"`, the first pass
gives `"{a}x"` and a second pass gives `"{a}xx"`. -/
theorem claim_C4_counterexample :
    substitute (substitute (strOf "{a}") [(strOf "a", strOf "{a}x")])
        [(strOf "a", strOf "{a}x")] ≠
      substitute (strOf "{a}") [(strOf "a", strOf "{a}x")] := by decide

/-- Claim C4, amended: a second substitution pass is a no-op whenever the
once-substituted string no longer contains the placeholder `{key}` of any
context key (in particular whenever the substituted values reintroduce no
placeholder); and a placeholder whose brace-free key is absent from a
context with brace-free keys is left verbatim (and substitution is total:
no error is possible). -/
theorem claim_C4 :
    (∀ (script : Str) (ctx : List (Str × Str)),
        (∀ kv ∈ ctx, isSub (patOf kv.1) (substitute script ctx) = false) →
        substitute (substitute script ctx) ctx = substitute script ctx) ∧
    (∀ (K : Str) (ctx : List (Str × Str)), braceFree K →
        (∀ kv ∈ ctx, braceFree kv.1) → (∀ kv ∈ ctx, kv.1 ≠ K) →
        substitute (patOf K) ctx = patOf K) := by
  constructor
  · intro script ctx h
    exact substitute_of_not_sub ctx _ h
  · intro K ctx hK hkeys hne
    apply substitute_of_not_sub
    intro kv hkv
    cases hx : isSub (patOf kv.1) (patOf K) with
    | false => rfl
    | true =>
      exact absurd
        (patOf_infix_eq kv.1 K (hkeys kv hkv) hK ((isSub_iff _ _).mp hx))
        (hne kv hkv)

/-- Claim C4, witness: substituting `"hello {name}"` with `name ↦ "bob"`
twice equals substituting once, and the placeholder of the absent key
`missing` is left verbatim. -/
theorem claim_C4_witness :
    substitute (substitute (strOf "hello {name}") [(strOf "name", strOf "bob")])
        [(strOf "name", strOf "bob")] =
      substitute (strOf "hello {name}") [(strOf "name", strOf "bob")] ∧
    substitute (patOf (strOf "missing")) [(strOf "name", strOf "bob")] =
      patOf (strOf "missing") :=
  ⟨claim_C4.1 (strOf "hello {name}") [(strOf "name", strOf "bob")] (by decide),
   claim_C4.2 (strOf "missing") [(strOf "name", strOf "bob")] (by decide)
     (by decide) (by decide)⟩

/-- Claim C10: a keyword- or entity-kind rule with an empty (or absent,
which is equally falsy) keyword list emits nothing, and whenever a datum
is emitted the keyword list is non-empty, so the confidence quotient's
denominator is strictly positive. -/
theorem claim_C10 (text text_lower : Str) (rule : ExtractionRule) :
    (rule.keywords = [] →
      extract_keywords text text_lower rule = none ∧
      extract_entities text text_lower rule = none) ∧
    (∀ d, extract_keywords text text_lower rule = some d →
      0 < rule.keywords.length) ∧
    (∀ d, extract_entities text text_lower rule = some d →
      0 < rule.keywords.length) := by
  refine ⟨?_, ?_, ?_⟩
  · intro h
    constructor <;> simp [extract_keywords, extract_entities, h]
  · intro d h
    cases hk : rule.keywords with
    | nil => rw [extract_keywords, hk] at h; simp at h
    | cons a l => simp [hk]
  · intro d h
    cases hk : rule.keywords with
    | nil => rw [extract_entities, hk] at h; simp at h
    | cons a l => simp [hk]

def c10_rule_empty : ExtractionRule :=
  ⟨strOf "pain_point", .keyword, [], [], false, [], ratDiv 7 10⟩

def c10_rule_nonempty : ExtractionRule :=
  ⟨strOf "greeting", .keyword, [strOf "hi"], [], false, [], 1⟩

/-- Claim C10, witness: the empty-keyword rule emits nothing on a
concrete utterance, and a rule that emitted a concrete datum has a
positive keyword count. -/
theorem claim_C10_witness :
    (extract_keywords (strOf "anything") (strOf "anything") c10_rule_empty = none ∧
      extract_entities (strOf "anything") (strOf "anything") c10_rule_empty = none) ∧
    0 < c10_rule_nonempty.keywords.length := by
  constructor
  · exact (claim_C10 (strOf "anything") (strOf "anything") c10_rule_empty).1 rfl
  · exact (claim_C10 (strOf "hi") (strOf "hi") c10_rule_nonempty).2.1
      ⟨strOf "greeting", .strs [strOf "hi"], 1, strOf "hi", .keyword⟩ (by decide)

/-- Claim C8: intent extraction always emits exactly one datum — the
first bucket of the fixed ordered table whose keyword set matches the
lowered utterance, at confidence 0.8, and `"general"` at confidence 0.5
when no bucket matches. -/
theorem claim_C8 (text text_lower : Str) (rule : ExtractionRule) :
    (extract_intent text text_lower rule).isSome = true ∧
    extract_intent text text_lower rule =
      (match intent_keywords.find? fun p => p.2.any fun k => isSub k text_lower with
       | some p => some ⟨rule.field_name, .str p.1, ratDiv 4 5, text,
           rule.extraction_type⟩
       | none => some ⟨rule.field_name, .str (strOf "general"), ratDiv 1 2, text,
           rule.extraction_type⟩) := by
  constructor
  · rw [extract_intent]
    cases h : scan_intents text_lower intent_keywords <;> simp [h]
  · rw [extract_intent, scan_intents_eq]
    cases h : intent_keywords.find? fun p => p.2.any fun k => isSub k text_lower <;>
      simp [h]

def c5_rule : ExtractionRule :=
  ⟨strOf "agreement", .keyword, [strOf "yes", strOf "yes"], [], false, [],
   ratDiv 3 5⟩

/-- Claim C5, counterexample: a rule whose keyword list holds the entry
`yes` twice, threshold 0.6, against the utterance `"yes, have it"`: the
claim's distinct-matched ratio is 1/2 < 0.6, so the claim predicts no
datum, but the code counts entries with multiplicity, emits, and reports
confidence 1. -/
theorem claim_C5_counterexample :
    (extract_keywords (strOf "yes, have it") (lowerStr (strOf "yes, have it"))
        c5_rule).map (fun d => d.confidence) = some 1 ∧
    ¬ (c5_rule.confidence_threshold ≤
        spec_keyword_confidence c5_rule (strOf "yes, have it")) ∧
    spec_keyword_confidence c5_rule (strOf "yes, have it") ≠ 1 := by decide

/-- Claim C5, amended: keyword confidence is (matched keyword ENTRIES,
multiplicity counted) over total entries, a datum is emitted iff at least
one entry matched and the confidence reaches the threshold (inclusive),
and the value is the list of matched entries in rule order.  With
distinct keywords and a positive threshold this is the original claim;
the inclusive boundary (2 of 4 matched against threshold 0.5) emits at
confidence 0.5. -/
theorem claim_C5 (rule : ExtractionRule) (text : Str)
    (h : rule.keywords ≠ []) :
    extract_keywords text (lowerStr text) rule =
      (if (rule.keywords.filter fun k => isSub (lowerStr k) (lowerStr text)) ≠ [] ∧
          rule.confidence_threshold ≤
            ratDiv (rule.keywords.filter fun k =>
              isSub (lowerStr k) (lowerStr text)).length rule.keywords.length
       then some ⟨rule.field_name,
              .strs (rule.keywords.filter fun k => isSub (lowerStr k) (lowerStr text)),
              ratDiv (rule.keywords.filter fun k =>
                isSub (lowerStr k) (lowerStr text)).length rule.keywords.length,
              text, rule.extraction_type⟩
       else none) := by
  have hne : rule.keywords.isEmpty = false := by
    cases hk : rule.keywords
    · exact absurd hk h
    · rfl
  rw [extract_keywords, hne]
  simp only [Bool.false_eq_true, if_false]
  cases hF : rule.keywords.filter fun k => isSub (lowerStr k) (lowerStr text) with
  | nil => simp
  | cons f fs =>
    simp only [List.isEmpty_cons, Bool.false_eq_true, if_false]
    by_cases hc : rule.confidence_threshold ≤
        ratDiv (f :: fs).length rule.keywords.length
    · rw [if_pos hc, if_pos ⟨List.cons_ne_nil f fs, hc⟩]
    · rw [if_neg hc, if_neg (fun hand => hc hand.2)]

def c5_rule4 : ExtractionRule :=
  ⟨strOf "pain_point", .keyword,
   [strOf "problem", strOf "challenge", strOf "issue", strOf "struggle"],
   [], false, [], ratDiv 1 2⟩

/-- Claim C5, witness: the inclusive boundary — 2 of 4 distinct keywords
matched against threshold 0.5 emits the matched list at confidence
exactly 0.5. -/
theorem claim_C5_witness :
    extract_keywords (strOf "we have a problem and a challenge")
        (lowerStr (strOf "we have a problem and a challenge")) c5_rule4 =
      some ⟨strOf "pain_point", .strs [strOf "problem", strOf "challenge"],
        ratDiv 1 2, strOf "we have a problem and a challenge", .keyword⟩ :=
  (claim_C5 c5_rule4 (strOf "we have a problem and a challenge")
    (by decide)).trans (by decide)

/-- Claim C6: the generated instruction's urgency level is
`min(5 + 2·opportunities + risks, 10)`, its risk level is
`min(3 + 3·risks + 2·objections, 10)`, and with no findings at all the
instruction is the neutral default. -/
theorem claim_C6 (analyses : List ConversationAnalysis) (cc : CampaignContext)
    (cs : ConversationState) :
    (generate_strategic_instruction analyses cc cs).urgency_level =
      min (5 + 2 * countType .opportunity_detection analyses +
        countType .risk_assessment analyses) 10 ∧
    (generate_strategic_instruction analyses cc cs).risk_level =
      min (3 + 3 * countType .risk_assessment analyses +
        2 * countType .objection_handling analyses) 10 ∧
    generate_strategic_instruction [] cc cs =
      { primary_goal := strOf "continue_conversation"
        secondary_goals := []
        tone_adjustment := strOf "professional_and_friendly"
        focus_areas := []
        avoid_topics := []
        next_questions := []
        urgency_level := 5
        risk_level := 3 } := by
  refine ⟨?_, ?_, rfl⟩
  · show calculate_urgency_level (sortDesc analyses) = _
    rw [calculate_urgency_level_eq, countType_sortDesc, countType_sortDesc]
  · show calculate_risk_level (sortDesc analyses) = _
    rw [calculate_risk_level_eq, countType_sortDesc, countType_sortDesc]

/-- Formalised from the spec's words: the fixed mapping from the
top finding's type to the primary goal (with the code's fall-through for
`NEXT_ACTION`). -/
def goal_of_type : AnalysisType → Str
  | .objection_handling => strOf "address_objections"
  | .opportunity_detection => strOf "capitalize_on_opportunities"
  | .stage_transition => strOf "transition_stage"
  | .risk_assessment => strOf "mitigate_risks"
  | .next_action => strOf "continue_conversation"

/-- The scenario utterance of claim C7. -/
def c7_input : Str :=
  strOf "I\x27m having trouble with my current software, it\x27s too expensive"

def c7_cc : CampaignContext :=
  ⟨strOf "sales", strOf "Unknown", strOf "Unknown", strOf "No script available"⟩

def c7_cs : ConversationState := ⟨strOf "needs_assessment", []⟩

/-- Claim C7: the head of the descending priority sort is a
maximal-priority finding and determines the primary goal through the
fixed mapping, with no findings mapping to `"continue_conversation"`;
and on the scenario utterance the objection analyzer produces a
priority-9 finding and the generated instruction's primary goal is
`"address_objections"`. -/
theorem claim_C7 :
    (∀ (analyses : List ConversationAnalysis) (cc : CampaignContext),
        analyses ≠ [] → ∃ top, (sortDesc analyses).head? = some top ∧
          top ∈ analyses ∧ (∀ x ∈ analyses, x.priority ≤ top.priority) ∧
          determine_primary_goal (sortDesc analyses) cc =
            goal_of_type top.analysis_type) ∧
    (∀ cc : CampaignContext,
      determine_primary_goal [] cc = strOf "continue_conversation") ∧
    (analyze_objections [] c7_input).map (fun a => a.priority) = some 9 ∧
    (analyze_conversation c7_input [] c7_cc c7_cs).primary_goal =
      strOf "address_objections" := by
  refine ⟨?_, fun cc => rfl, by decide, by decide⟩
  intro analyses cc h
  cases hs : sortDesc analyses with
  | nil => exact absurd hs (sortDesc_ne_nil analyses h)
  | cons top rest =>
    obtain ⟨ty, cf, re, ra, pr⟩ := top
    refine ⟨⟨ty, cf, re, ra, pr⟩, rfl, ?_, ?_, ?_⟩
    · exact (mem_sortDesc _ analyses).mp (hs ▸ List.mem_cons_self _ rest)
    · intro x hx
      exact maxHead_sortDesc analyses _ (by rw [hs]; rfl) x
        ((mem_sortDesc x analyses).mpr hx)
    · cases ty <;> rfl

def c7a : ConversationAnalysis :=
  ⟨.objection_handling, ratMul (ratDiv 1 7) (ratDiv 4 5),
   strOf "Customer expressed objections: expensive",
   strOf "address_objections", 9⟩

/-- Claim C7, witness: applying the sorted-head property to the concrete
one-element finding list of the scenario. -/
theorem claim_C7_witness :
    determine_primary_goal (sortDesc [c7a]) c7_cc =
      goal_of_type c7a.analysis_type := by
  obtain ⟨top, -, hmem, -, hgoal⟩ := claim_C7.1 [c7a] c7_cc (by simp)
  have htop : top = c7a := by simpa using hmem
  exact htop ▸ hgoal

def findall_fail : Str → Str → Except RegexError (List PatMatch) :=
  fun _ _ => .error ⟨strOf "missing ), unterminated subpattern"⟩

def c2_bad_rule : ExtractionRule :=
  ⟨strOf "budget_range", .pattern, [], [strOf "(unclosed"], false, [],
   ratDiv 7 10⟩

def c2_good_rule : ExtractionRule :=
  ⟨strOf "intent", .intent, [], [], false, [], ratDiv 7 10⟩

/-- Claim C2, counterexample: a batch holding a malformed pattern rule
followed by an intent rule aborts with the regex error — the error
propagates out of `extract_from_text` and the later rule (which on its
own would emit a datum, second conjunct) is never evaluated. -/
theorem claim_C2_counterexample :
    extract_from_text findall_fail (strOf "yes") [c2_bad_rule, c2_good_rule] =
      .error ⟨strOf "missing ), unterminated subpattern"⟩ ∧
    extract_from_text findall_fail (strOf "yes") [c2_good_rule] =
      .ok [(strOf "intent",
        ⟨strOf "intent", .str (strOf "interested"), ratDiv 4 5, strOf "yes",
          .intent⟩)] := by decide

/-- Claim C2, amended: there is no per-rule error isolation — if every
rule of a prefix evaluates without raising and the next rule raises a
regex error, `extract_from_text` propagates exactly that error,
discarding the prefix's results and never evaluating the remaining
rules. -/
theorem claim_C2 (findall : Str → Str → Except RegexError (List PatMatch))
    (text : Str) (pre : List ExtractionRule) (bad : ExtractionRule)
    (post : List ExtractionRule) (err : RegexError)
    (hpre : ∀ r ∈ pre, ∃ x, apply_extraction_rule findall text r = .ok x)
    (hbad : apply_extraction_rule findall text bad = .error err) :
    extract_from_text findall text (pre ++ bad :: post) = .error err :=
  extract_go_error findall text bad post err hbad pre [] hpre

/-- Claim C2, witness: the amended propagation law applied to a concrete
singleton batch. -/
theorem claim_C2_witness :
    extract_from_text findall_fail (strOf "call me") [c2_bad_rule] =
      .error ⟨strOf "missing ), unterminated subpattern"⟩ :=
  claim_C2 findall_fail (strOf "call me") [] c2_bad_rule []
    ⟨strOf "missing ), unterminated subpattern"⟩ (by simp) (by decide)

def c1_rules : TransitionRules := ⟨some 2, none, none, some [strOf "ready"]⟩

/-- Claim C1: the `transition_signals` block of the core
`should_transition_stage` is guarded by `and conditions_met`, so it can
never change the returned value — the function returns exactly the AND
of the configured checks (first conjunct).  At stage rules
`{min_turns: 2, transition_signals: ["ready"]}`, transcript length 0,
utterance `"i am ready"` and no sentiment score, the signal matches and
the spec's predicate is true, yet the code returns false; the
`call_agent` variant (OR semantics, no signal check) also returns false
there. -/
theorem claim_C1 :
    (∀ (rules : TransitionRules) (transcript_len : Nat) (user_input : Str)
        (sentiment_score : Option ℚ),
        should_transition_stage rules transcript_len user_input sentiment_score =
          spec_and_path rules transcript_len user_input sentiment_score) ∧
    should_transition_stage c1_rules 0 (strOf "i am ready") none = false ∧
    spec_signal_match c1_rules (strOf "i am ready") = true ∧
    spec_should_transition c1_rules 0 (strOf "i am ready") none = true ∧
    should_transition_stage_agent c1_rules 0 (strOf "i am ready") none = false := by
  refine ⟨?_, by decide, by decide, by decide, by decide⟩
  intro r t i s
  rcases r with ⟨mt, kw, st, ts⟩
  cases mt <;> cases kw <;> cases st <;> cases ts <;> cases s <;>
    simp only [should_transition_stage, spec_and_path, Bool.and_true,
      Bool.true_and] <;>
    (split_ifs <;>
      simp_all [decide_eq_true_eq, decide_eq_false_iff_not, not_lt, not_le,
        Nat.not_lt, Nat.not_le])

lemma except_mapError_ok {ε ε' α : Type} (f : ε → ε') (a : α) :
    (Except.ok a : Except ε α).mapError f = .ok a := rfl

lemma except_mapError_error {ε ε' α : Type} (f : ε → ε') (e : ε) :
    (Except.error e : Except ε α).mapError f = .error (f e) := rfl

lemma process_eq_of_body_ok
    (findall : Str → Str → Except RegexError (List PatMatch))
    (rules : List ExtractionRule) (user_input : Str) (cc : CampaignContext)
    (cs : ConversationState) (invoke : Except LLMError Str)
    (res : PipelineResult)
    (h : pipeline_body findall rules user_input cc cs invoke = .ok res) :
    process_user_input findall rules user_input cc cs invoke = res := by
  rw [process_user_input, h]

lemma process_eq_of_body_error
    (findall : Str → Str → Except RegexError (List PatMatch))
    (rules : List ExtractionRule) (user_input : Str) (cc : CampaignContext)
    (cs : ConversationState) (invoke : Except LLMError Str) (e : PipeErr)
    (h : pipeline_body findall rules user_input cc cs invoke = .error e) :
    process_user_input findall rules user_input cc cs invoke =
      create_fallback_result user_input := by
  rw [process_user_input, h]

lemma pipeline_body_ok_of_steps
    (findall : Str → Str → Except RegexError (List PatMatch))
    (rules : List ExtractionRule) (user_input : Str) (cc : CampaignContext)
    (cs : ConversationState) (invoke : Except LLMError Str)
    (ex : List (Str × ExtractedData)) (instr : StrategicInstruction)
    (ctx : LLMContext)
    (hex : extract_from_text findall user_input rules = .ok ex)
    (hbr : analyze_conversation_in_pipeline user_input ex cc cs = .ok instr)
    (hcx : build_llm_context ex instr cc cs = .ok ctx) :
    pipeline_body findall rules user_input cc cs invoke =
      .ok { user_input := user_input
            extracted_data := ex
            strategic_instruction := instr
            llm_response := generate_response invoke ctx
            response_quality_score :=
              get_response_quality_score (generate_response invoke ctx) ctx } := by
  rw [pipeline_body, hex]
  simp only [except_mapError_ok, except_bind_ok]
  rw [hbr]
  simp only [except_bind_ok]
  rw [hcx]
  rfl

/-- The canned fallback of every campaign type is a non-empty string. -/
lemma get_fallback_response_ne_nil (ctx : LLMContext) :
    get_fallback_response ctx ≠ [] := by
  simp only [get_fallback_response]
  cases ctx.campaign_type <;> decide

/-- Claim C3: whenever any pipeline step raises (the body resolves to an
error) or the chat model call fails, `process_user_input` still returns —
the embedding is total, the `try/except` surfacing as the fallback
branch — and its reply is non-empty; and when extraction and analysis
succeed, the campaign type is `support` and the chat model call fails,
the reply is exactly the support entry of the campaign-type fallback
table. -/
theorem claim_C3 (findall : Str → Str → Except RegexError (List PatMatch))
    (rules : List ExtractionRule) (user_input : Str) (cc : CampaignContext)
    (cs : ConversationState) (invoke : Except LLMError Str) :
    ((∃ e, pipeline_body findall rules user_input cc cs invoke = .error e) ∨
        (∃ e, invoke = .error e) →
      (process_user_input findall rules user_input cc cs invoke).llm_response ≠
        []) ∧
    (∀ (ex : List (Str × ExtractedData)) (instr : StrategicInstruction)
        (e : LLMError),
        extract_from_text findall user_input rules = .ok ex →
        analyze_conversation_in_pipeline user_input ex cc cs = .ok instr →
        lowerStr cc.campaign_type = strOf "support" →
        invoke = .error e →
        (process_user_input findall rules user_input cc cs invoke).llm_response =
          strOf "I apologize for the technical issue. Let me help you with that.") := by
  constructor
  · intro h
    cases hpb : pipeline_body findall rules user_input cc cs invoke with
    | error e =>
      rw [process_eq_of_body_error _ _ _ _ _ _ _ hpb]
      show strOf
        "I apologize, but I\x27m having trouble processing that right now. Could you please repeat?"
        ≠ []
      decide
    | ok r =>
      rcases h with ⟨e, he⟩ | ⟨e, he⟩
      · rw [he] at hpb; exact absurd hpb (by simp)
      · subst he
        cases hex : extract_from_text findall user_input rules with
        | error re =>
          rw [pipeline_body, hex] at hpb
          simp only [except_mapError_error, except_bind_error] at hpb
          exact absurd hpb (by simp)
        | ok ex =>
          cases hbr : analyze_conversation_in_pipeline user_input ex cc cs with
          | error pe =>
            rw [pipeline_body, hex] at hpb
            simp only [except_mapError_ok, except_bind_ok] at hpb
            rw [hbr] at hpb
            simp only [except_bind_error] at hpb
            exact absurd hpb (by simp)
          | ok instr =>
            cases hcx : build_llm_context ex instr cc cs with
            | error pe =>
              rw [pipeline_body, hex] at hpb
              simp only [except_mapError_ok, except_bind_ok] at hpb
              rw [hbr] at hpb
              simp only [except_bind_ok] at hpb
              rw [hcx] at hpb
              simp only [except_bind_error] at hpb
              exact absurd hpb (by simp)
            | ok ctx =>
              rw [process_eq_of_body_ok _ _ _ _ _ _ _
                (pipeline_body_ok_of_steps _ _ _ _ _ _ _ _ _ hex hbr hcx)]
              show generate_response (.error e) ctx ≠ []
              exact get_fallback_response_ne_nil ctx
  · intro ex instr e hex hbr hsup hinv
    subst hinv
    have hct : campaign_type_of_str (lowerStr cc.campaign_type) = .ok .support := by
      rw [hsup]; decide
    have hcx : build_llm_context ex instr cc cs =
        .ok { campaign_type := .support
              personality_type :=
                (personality_type_of_str (lowerStr instr.tone_adjustment)).getD
                  .professional_friendly
              strategic_instruction := instr
              extracted_data := ex
              campaign_script := cc.current_script
              contact_name := cc.contact_name
              contact_company := cc.contact_company
              current_stage := cs.current_stage } := by
      rw [build_llm_context, hct]
    rw [process_eq_of_body_ok _ _ _ _ _ _ _
      (pipeline_body_ok_of_steps _ _ _ _ _ _ _ _ _ hex hbr hcx)]
    rfl

def c3_findall : Str → Str → Except RegexError (List PatMatch) :=
  fun _ _ => .ok []

def c3_cc : CampaignContext :=
  ⟨strOf "Support", strOf "Ann", strOf "Acme", strOf "follow-up script"⟩

def c3_cs : ConversationState := ⟨strOf "introduction", []⟩

def c3_err : LLMError := ⟨strOf "connection refused"⟩

/-- Claim C3, witness: a concrete support-campaign turn whose chat-model
call fails yields exactly the canned support reply, in particular a
non-empty one. -/
theorem claim_C3_witness :
    (process_user_input c3_findall [] (strOf "hello") c3_cc c3_cs
        (.error c3_err)).llm_response =
      strOf "I apologize for the technical issue. Let me help you with that." ∧
    (process_user_input c3_findall [] (strOf "hello") c3_cc c3_cs
        (.error c3_err)).llm_response ≠ [] := by
  constructor
  · exact (claim_C3 c3_findall [] (strOf "hello") c3_cc c3_cs
      (.error c3_err)).2 []
      (analyze_conversation (strOf "hello") [] c3_cc c3_cs) c3_err
      (by decide) (by decide) (by decide) rfl
  · exact (claim_C3 c3_findall [] (strOf "hello") c3_cc c3_cs
      (.error c3_err)).1 (Or.inr ⟨c3_err, rfl⟩)

end CallAi
